import Mathlib

/-!
Verification development for the FinAnalyzer ingestion-and-consistency pipeline.

The first part embeds the TypeScript prompt-transformation module
(apps/web financial data transformer): statement record types, the guarded
ratio and growth helpers, the per-year metric computation, and the main
transformer. Numeric fields typed `number` in TypeScript are modelled as
rationals (the verified properties concern the null guards and data flow,
not float rounding); fiscal years, which the source carries as canonical
decimal numeral strings, are modelled as naturals.
-/

/-- From financial.ts: the income statement record. Only the fields read by
the transformer and metric calculators are carried. -/
structure FMPIncomeStatement where
  symbol : String
  reportedCurrency : String
  fiscalYear : Nat
  revenue : Rat
  grossProfit : Rat
  operatingIncome : Rat
  interestExpense : Rat
  netIncome : Rat
deriving DecidableEq, Inhabited

/-- From financial.ts: the balance sheet record (fields used by the metric
calculators). -/
structure FMPBalanceSheetStatement where
  totalCurrentAssets : Rat
  totalCurrentLiabilities : Rat
  totalDebt : Rat
  totalEquity : Rat
  totalAssets : Rat
  totalLiabilities : Rat
  cashAndCashEquivalents : Rat
deriving DecidableEq, Inhabited

/-- From financial.ts: the cash flow record (fields used by the metric
calculators). -/
structure FMPCashFlowStatement where
  operatingCashFlow : Rat
  freeCashFlow : Rat
deriving DecidableEq, Inhabited

/-- From financial.ts: one fiscal period bundle of the three statements. -/
structure FMPFinancialStatements where
  incomeStatement : FMPIncomeStatement
  balanceSheet : FMPBalanceSheetStatement
  cashFlow : FMPCashFlowStatement
deriving DecidableEq, Inhabited

/-- From the transformer module: the metrics record. Every field is nullable
in the source (`number | null`). -/
structure FinancialMetrics where
  grossMargin : Option Rat
  operatingMargin : Option Rat
  netMargin : Option Rat
  revenueGrowth : Option Rat
  netIncomeGrowth : Option Rat
  freeCashFlowGrowth : Option Rat
  currentRatio : Option Rat
  debtToEquity : Option Rat
  returnOnEquity : Option Rat
  returnOnAssets : Option Rat
  returnOnInvestedCapital : Option Rat
  assetTurnover : Option Rat
  operatingCashFlowMargin : Option Rat
  freeCashFlowMargin : Option Rat
deriving DecidableEq, Inhabited

/-- From the transformer module: one row of `historicalData`. -/
structure FinancialYearData where
  year : Nat
  revenue : Rat
  netIncome : Rat
  freeCashFlow : Rat
  totalAssets : Rat
  totalLiabilities : Rat
  totalEquity : Rat
deriving DecidableEq, Inhabited

/-- From the transformer module: the company header of the transformed data. -/
structure CompanyInfo where
  symbol : String
  currency : String
deriving DecidableEq, Inhabited

/-- From the transformer module: the transformer result. `yearlyMetrics`,
a string-keyed object in the source whose integer-like keys enumerate in
ascending numeric order, is modelled as an association list in that order.
`latestMetrics` is an `Option` because the source expression
`yearlyMetrics[latestYear]` is undefined when no statement carries a truthy
fiscal year. -/
structure TransformedFinancialData where
  companyInfo : CompanyInfo
  historicalData : List FinancialYearData
  latestMetrics : Option FinancialMetrics
  yearlyMetrics : List (Nat × FinancialMetrics)
deriving DecidableEq, Inhabited

/-- From the transformer module: `calculateRatio`. Returns null when the
numerator or denominator is undefined or null (modelled as `none`) or the
denominator is zero; otherwise the quotient. The source guard checks the
five degenerate cases in one disjunction before dividing. -/
def calculateRatio (numerator denominator : Option Rat) : Option Rat :=
  if numerator = none ∨ denominator = none ∨ denominator = some 0 then
    none
  else
    some (numerator.iget / denominator.iget)

/-- From the transformer module: `calculateGrowth`. Null on undefined or
null arguments or a zero base; otherwise the relative change against the
absolute value of the base. -/
def calculateGrowth (current previous : Option Rat) : Option Rat :=
  if current = none ∨ previous = none ∨ previous = some 0 then
    none
  else
    some ((current.iget - previous.iget) / |previous.iget|)

/-- From the transformer module: `calculateMetricsForYear`. The source reads
the sections of `current` through optional chaining; the record type makes
the sections non-null, so those reads are modelled as `some` of the field.
`previous` is genuinely optional (absent for the first year). The JavaScript
truthiness guards on `investedCapital` and `ebit` treat a zero field as
falsy, which the model reproduces. -/
def calculateMetricsForYear (current : FMPFinancialStatements)
    (previous : Option FMPFinancialStatements) : FinancialMetrics :=
  let is := current.incomeStatement
  let bs := current.balanceSheet
  let cf := current.cashFlow
  let previousIs := previous.map (fun p => p.incomeStatement)
  let previousCf := previous.map (fun p => p.cashFlow)
  let grossMargin := calculateRatio (some is.grossProfit) (some is.revenue)
  let operatingMargin := calculateRatio (some is.operatingIncome) (some is.revenue)
  let netMargin := calculateRatio (some is.netIncome) (some is.revenue)
  let revenueGrowth := calculateGrowth (some is.revenue) (previousIs.map (fun p => p.revenue))
  let netIncomeGrowth := calculateGrowth (some is.netIncome) (previousIs.map (fun p => p.netIncome))
  let freeCashFlowGrowth := calculateGrowth (some cf.freeCashFlow) (previousCf.map (fun p => p.freeCashFlow))
  let currentRatio := calculateRatio (some bs.totalCurrentAssets) (some bs.totalCurrentLiabilities)
  let debtToEquity := calculateRatio (some bs.totalDebt) (some bs.totalEquity)
  let returnOnEquity := calculateRatio (some is.netIncome) (some bs.totalEquity)
  let returnOnAssets := calculateRatio (some is.netIncome) (some bs.totalAssets)
  let investedCapital :=
    if bs.totalDebt ≠ 0 ∧ bs.totalEquity ≠ 0 ∧ bs.cashAndCashEquivalents ≠ 0 then
      some (bs.totalDebt + bs.totalEquity - bs.cashAndCashEquivalents)
    else
      none
  let ebit :=
    if is.operatingIncome ≠ 0 ∧ is.interestExpense ≠ 0 then
      some (is.operatingIncome + is.interestExpense)
    else
      none
  let returnOnInvestedCapital := calculateRatio ebit investedCapital
  let assetTurnover := calculateRatio (some is.revenue) (some bs.totalAssets)
  let operatingCashFlowMargin := calculateRatio (some cf.operatingCashFlow) (some is.revenue)
  let freeCashFlowMargin := calculateRatio (some cf.freeCashFlow) (some is.revenue)
  { grossMargin := grossMargin
    operatingMargin := operatingMargin
    netMargin := netMargin
    revenueGrowth := revenueGrowth
    netIncomeGrowth := netIncomeGrowth
    freeCashFlowGrowth := freeCashFlowGrowth
    currentRatio := currentRatio
    debtToEquity := debtToEquity
    returnOnEquity := returnOnEquity
    returnOnAssets := returnOnAssets
    returnOnInvestedCapital := returnOnInvestedCapital
    assetTurnover := assetTurnover
    operatingCashFlowMargin := operatingCashFlowMargin
    freeCashFlowMargin := freeCashFlowMargin }

/-- Fiscal year of a statement bundle, the sort and grouping key of the
transformer (the source parses the year string with `parseInt`; the model
carries the parsed value directly). -/
def fiscalYearOf (f : FMPFinancialStatements) : Nat :=
  f.incomeStatement.fiscalYear

/-- Assignment into a string-keyed object, modelled on an association list:
replace the value at an existing key, otherwise append. -/
def assocSet (acc : List (Nat × FMPFinancialStatements)) (y : Nat)
    (f : FMPFinancialStatements) : List (Nat × FMPFinancialStatements) :=
  match acc with
  | [] => [(y, f)]
  | (y', f') :: rest =>
      if y' = y then (y, f) :: rest else (y', f') :: assocSet rest y f

/-- From the transformer module: `getFinancialsByYear`. A reduce that keys
each bundle by its fiscal year; the source skips falsy year keys, modelled
as skipping year zero. -/
def getFinancialsByYear (financials : List FMPFinancialStatements) :
    List (Nat × FMPFinancialStatements) :=
  financials.foldl
    (fun acc financial =>
      let year := fiscalYearOf financial
      if year ≠ 0 then assocSet acc year financial else acc)
    []

/-- Lookup in a year-keyed association list. -/
def lookupYear {α : Type} (m : List (Nat × α)) (y : Nat) : Option α :=
  (m.find? (fun p => p.1 == y)).map (fun p => p.2)

/-- From the transformer module: the sort of the input by ascending parsed
fiscal year. The source uses the stable JavaScript array sort with the
comparator on parsed years; on inputs with pairwise distinct fiscal years
(the domain of the order-insensitivity property) every correct sort agrees,
and insertion sort is used as the model. -/
def sortByFiscalYear (financials : List FMPFinancialStatements) :
    List FMPFinancialStatements :=
  List.insertionSort (fun a b => fiscalYearOf a ≤ fiscalYearOf b) financials

/-- The main loop of the transformer: walks the ascending year keys,
computing metrics against the previous year and collecting the
`yearlyMetrics` and `historicalData` rows. The year keys come from the map,
so the lookup of the current year always succeeds; `getD` supplies the
default bundle only to make the model total. -/
def buildYearRows (byYear : List (Nat × FMPFinancialStatements)) :
    List Nat → Option Nat →
    List (Nat × FinancialMetrics) × List FinancialYearData
  | [], _ => ([], [])
  | y :: ys, prevYear =>
      let currentFinancials := (lookupYear byYear y).getD default
      let previousFinancials := prevYear.bind (lookupYear byYear)
      let metrics := calculateMetricsForYear currentFinancials previousFinancials
      let row : FinancialYearData :=
        { year := y
          revenue := currentFinancials.incomeStatement.revenue
          netIncome := currentFinancials.incomeStatement.netIncome
          freeCashFlow := currentFinancials.cashFlow.freeCashFlow
          totalAssets := currentFinancials.balanceSheet.totalAssets
          totalLiabilities := currentFinancials.balanceSheet.totalLiabilities
          totalEquity := currentFinancials.balanceSheet.totalEquity }
      let rest := buildYearRows byYear ys (some y)
      ((y, metrics) :: rest.1, row :: rest.2)

/-- The body of the transformer applied to the already-sorted input: group
by year, enumerate the year keys in ascending order (string-keyed object
enumeration followed by the sort in the source), build the per-year rows,
and read the header from the first sorted bundle. -/
def transformSorted (sortedFinancials : List FMPFinancialStatements) :
    TransformedFinancialData :=
  let financialsByYear := getFinancialsByYear sortedFinancials
  let years := List.insertionSort (fun a b => a ≤ b) (financialsByYear.map (fun p => p.1))
  let rows := buildYearRows financialsByYear years none
  let latestMetrics := years.getLast?.bind (lookupYear rows.1)
  { companyInfo :=
      { symbol := sortedFinancials.headI.incomeStatement.symbol
        currency := sortedFinancials.headI.incomeStatement.reportedCurrency }
    historicalData := rows.2
    latestMetrics := latestMetrics
    yearlyMetrics := rows.1 }

/-- From the transformer module: `transformFinancialDataForPrompts`. The
source throws on an empty input list, modelled as `none`; otherwise it
sorts the input by fiscal year and computes the transformed data. -/
def transformFinancialDataForPrompts (financials : List FMPFinancialStatements) :
    Option TransformedFinancialData :=
  match financials with
  | [] => none
  | f :: fs => some (transformSorted (sortByFiscalYear (f :: fs)))

/-!
The second part models the Python ingestion pipeline (data-adapter and
api-gateway packages). The Python sources are not part of this tree; the
repository carries their architecture document and the database schema,
which the definitions below follow, and where only the specification
describes a behaviour the definition is modelled from the specification
and marked as such in its doc comment.
-/

/-- Statement kinds of the data model: the three statement endpoints plus
the consolidated tag used for merged records (schema.prisma stores the
merged record with the type column set to consolidated). -/
inductive StatementKind where
  | incomeStatement
  | balanceSheetStatement
  | cashFlowStatement
  | consolidated
deriving DecidableEq

/-- A semi-structured statement payload: named numeric fields. -/
abbrev Payload := List (String × Int)

/-- The composite uniqueness key of a FinancialRecord, matching the
`@@unique([companyId, year, period, type])` constraint of schema.prisma. -/
structure StoreKey where
  company : String
  year : Nat
  period : String
  kind : StatementKind
deriving DecidableEq

/-- Modelled from the spec: a consolidated FinancialRecord document — one
optional section per statement kind, the `sources` set of statement kinds
merged so far, and the last-updated timestamp. -/
structure FinDocument where
  incomeSection : Option Payload
  balanceSection : Option Payload
  cashFlowSection : Option Payload
  consolidatedSection : Option Payload
  sources : Finset StatementKind
  lastUpdated : Nat
deriving DecidableEq

/-- The empty document: no sections merged yet. -/
def emptyDocument : FinDocument :=
  { incomeSection := none
    balanceSection := none
    cashFlowSection := none
    consolidatedSection := none
    sources := ∅
    lastUpdated := 0 }

/-- The section of a document scoped to a statement kind. -/
def sectionOf (d : FinDocument) (kind : StatementKind) : Option Payload :=
  match kind with
  | .incomeStatement => d.incomeSection
  | .balanceSheetStatement => d.balanceSection
  | .cashFlowStatement => d.cashFlowSection
  | .consolidated => d.consolidatedSection

/-- Modelled from the spec: merge a payload into the kind-scoped section of
a document, record the kind in `sources`, and refresh the timestamp. No
other section is touched. -/
def mergeSection (d : FinDocument) (kind : StatementKind) (payload : Payload)
    (ts : Nat) : FinDocument :=
  match kind with
  | .incomeStatement =>
      { d with incomeSection := some payload
               sources := insert kind d.sources
               lastUpdated := ts }
  | .balanceSheetStatement =>
      { d with balanceSection := some payload
               sources := insert kind d.sources
               lastUpdated := ts }
  | .cashFlowStatement =>
      { d with cashFlowSection := some payload
               sources := insert kind d.sources
               lastUpdated := ts }
  | .consolidated =>
      { d with consolidatedSection := some payload
               sources := insert kind d.sources
               lastUpdated := ts }

/-- The JSON-document store: the list of live FinancialRecord rows. -/
abbrev FinStore := List (StoreKey × FinDocument)

/-- Lookup of the live record at a key (first match). -/
def lookupStore : FinStore → StoreKey → Option FinDocument
  | [], _ => none
  | (k, d) :: rest, key => if k = key then some d else lookupStore rest key

/-- In-place update of the record at a key, leaving every other row and the
row order unchanged. -/
def updateStore (store : FinStore) (key : StoreKey)
    (f : FinDocument → FinDocument) : FinStore :=
  match store with
  | [] => []
  | (k, d) :: rest =>
      if k = key then (k, f d) :: rest else (k, d) :: updateStore rest key f

/-- Modelled from the spec (storage manager, data-adapter database layer,
whose Python source is absent from this tree): `upsert_financials` targets
the consolidated record of (company, year, period); if absent it creates
the record with the payload merged into the kind-scoped section, and if
present it merges into the existing document — never replacing the other
sections and never inserting a second row for the key. -/
def upsert_financials (store : FinStore) (company : String) (year : Nat)
    (period : String) (kind : StatementKind) (payload : Payload) (ts : Nat) :
    FinStore :=
  match lookupStore store ⟨company, year, period, .consolidated⟩ with
  | none =>
      store ++ [(⟨company, year, period, .consolidated⟩,
                 mergeSection emptyDocument kind payload ts)]
  | some _ =>
      updateStore store ⟨company, year, period, .consolidated⟩
        (fun d => mergeSection d kind payload ts)

/-- One upsert request: the arguments of a single `upsert_financials` call. -/
structure UpsertOp where
  company : String
  year : Nat
  period : String
  kind : StatementKind
  payload : Payload
  ts : Nat

/-- Apply one upsert request to the store. -/
def applyOp (store : FinStore) (op : UpsertOp) : FinStore :=
  upsert_financials store op.company op.year op.period op.kind op.payload op.ts

/-- The store reached from the empty store by a sequence of upserts: the
reachable states of the storage manager write path. -/
def applyOps (ops : List UpsertOp) : FinStore :=
  List.foldl applyOp [] ops

/-- A typed upstream API error carrying the upstream status, per the error
taxonomy of the data adapter. -/
structure APIError where
  status : Nat
  message : String
deriving DecidableEq

/-- Per-ticker outcome collected by the batch processor. -/
inductive TickerOutcome where
  | success (storedIds : List String)
  | failed (error : APIError)
deriving DecidableEq

/-- Invocation-level misuse of the batch call: the only conditions allowed
to escape it. -/
inductive BatchUsageError where
  | emptyTickerList
  | invalidProviderKey
deriving DecidableEq

/-- Modelled from the spec (async processor, whose Python source is absent
from this tree): `fetch_and_store_for_tickers` rejects invocation-level
misuse (an empty ticker list or a provider key outside the adapter
registry) and otherwise runs the per-ticker pipeline for every requested
ticker, capturing an APIError as that ticker's failed outcome instead of
letting it escape, and returns the complete per-ticker result map. -/
def fetch_and_store_for_tickers (registry : List String) (providerKey : String)
    (pipeline : String → Except APIError (List String))
    (tickers : List String) :
    Except BatchUsageError (List (String × TickerOutcome)) :=
  if tickers.isEmpty then
    Except.error .emptyTickerList
  else if providerKey ∉ registry then
    Except.error .invalidProviderKey
  else
    Except.ok (tickers.map (fun t =>
      (t, match pipeline t with
          | Except.ok ids => TickerOutcome.success ids
          | Except.error e => TickerOutcome.failed e)))

/-- From the async processor budget division, as recorded verbatim in the
architecture document: when a global max-data-points budget is supplied
(a truthy value, so nonzero) and more than one ticker is requested, each
ticker receives the integer quotient of the budget by the ticker count. -/
def per_ticker_limit (maxDataPoints : Option Nat) (tickers : List String) :
    Option Nat :=
  match maxDataPoints with
  | some b => if b ≠ 0 ∧ 1 < tickers.length then some (b / tickers.length) else some b
  | none => none

/-- The per-ticker budget allocation of one batch run: every requested
ticker paired with its allotted data-point limit. -/
def allocate_budget (maxDataPoints : Option Nat) (tickers : List String) :
    List (String × Option Nat) :=
  tickers.map (fun t => (t, per_ticker_limit maxDataPoints tickers))

/-- A point-in-time SEC filing reference. Filing dates are modelled as day
numbers. -/
structure SecFiling where
  filingType : String
  filingDate : Nat
  url : String
deriving DecidableEq

/-- The provider wire API for the filings search: the requested page of the
result set, at the requested page size. `allFilings` is the full upstream
result set for the queried symbol and date window, across all pages. -/
def fmpSecFilingsPage (allFilings : List SecFiling) (page limit : Nat) :
    List SecFiling :=
  (allFilings.drop (page * limit)).take limit

/-- From the architecture document (the Python transport source is absent
from this tree): `fetch_and_store_sec_filings` issues one request with the
parameters page 0 and limit 1000 — the maximum page size — and uses the
records of that single response. No further pages are requested. -/
def fetch_and_store_sec_filings (allFilings : List SecFiling) :
    List SecFiling :=
  fmpSecFilingsPage allFilings 0 1000

/-- A company row of the database (id and ticker). -/
structure DbCompany where
  id : String
  ticker : String
deriving DecidableEq

/-- A FinancialData row as seen by the completeness queries: company, year
and statement type (the period and payload do not enter the checks). -/
structure DbFinancialData where
  companyId : String
  year : Nat
  statementType : String
deriving DecidableEq

/-- A SecFiling row as seen by the completeness queries. -/
structure DbSecFiling where
  companyId : String
  filingType : String
  filingDate : Nat
deriving DecidableEq

/-- The relational state queried by the completeness checks. -/
structure Database where
  companies : List DbCompany
  financialData : List DbFinancialData
  secFilings : List DbSecFiling

/-- Company id lookup by ticker. -/
def get_company_id (db : Database) (ticker : String) : Option String :=
  (db.companies.find? (fun c => c.ticker == ticker)).map (fun c => c.id)

/-- The structured completeness report. The unknown-company result of the
processor is the same shape with the reason field set, as in the
architecture document. -/
structure CompletenessStatus where
  is_complete : Bool
  has_complete_financials : Bool
  has_old_10k_filings : Bool
  has_recent_filings : Bool
  missing_financial_data : List Nat
  reason : Option String
deriving DecidableEq

/-- The three statement types every required year must carry. -/
def financialTypes : List String :=
  ["income-statement", "balance-sheet-statement", "cash-flow-statement"]

/-- From the database-layer completeness check of the architecture document:
count the required years missing any of the three statement types, count
10-K filings at or before the old-age threshold, count 10-K or 10-Q filings
at or after the recency threshold, and report all three checks. -/
def check_data_completeness (db : Database) (companyId : String)
    (requiredYears : List Nat) (oldThreshold recentThreshold : Nat) :
    CompletenessStatus :=
  let missingYears := requiredYears.filter (fun y =>
    !(financialTypes.all (fun t =>
      db.financialData.any (fun r =>
        r.companyId == companyId && r.year == y && r.statementType == t))))
  let hasFinancials := missingYears.isEmpty
  let oldCount := (db.secFilings.filter (fun f =>
    f.companyId == companyId && f.filingType == "10-K" &&
      f.filingDate ≤ oldThreshold)).length
  let recentCount := (db.secFilings.filter (fun f =>
    f.companyId == companyId &&
      (f.filingType == "10-K" || f.filingType == "10-Q") &&
      recentThreshold ≤ f.filingDate)).length
  { is_complete := hasFinancials && decide (0 < oldCount) && decide (0 < recentCount)
    has_complete_financials := hasFinancials
    has_old_10k_filings := decide (0 < oldCount)
    has_recent_filings := decide (0 < recentCount)
    missing_financial_data := missingYears
    reason := none }

/-- The unknown-company result returned by the processor task, as recorded
in the architecture document: a normal result value, not an exception. -/
def companyNotFoundStatus : CompletenessStatus :=
  { is_complete := false
    has_complete_financials := false
    has_old_10k_filings := false
    has_recent_filings := false
    missing_financial_data := []
    reason := some "company_not_found" }

/-- From the processor-level completeness task of the architecture document
(the Python source is absent from this tree): resolve the ticker to a
company id; when the company is unknown return the not-found report, and
otherwise return the database-level report. The result type admits an
error so that raising would be representable; the task never produces one. -/
def check_completeness_task (db : Database) (ticker : String)
    (requiredYears : List Nat) (oldThreshold recentThreshold : Nat) :
    Except String CompletenessStatus :=
  match get_company_id db ticker with
  | none => Except.ok companyNotFoundStatus
  | some companyId =>
      Except.ok (check_data_completeness db companyId requiredYears
        oldThreshold recentThreshold)

/-- The processor fan-out: the completeness task for every requested
ticker, zipped back into a per-ticker map. -/
def check_data_completeness_for_tickers (db : Database)
    (tickers : List String) (requiredYears : List Nat)
    (oldThreshold recentThreshold : Nat) :
    List (String × Except String CompletenessStatus) :=
  tickers.map (fun t =>
    (t, check_completeness_task db t requiredYears oldThreshold recentThreshold))

/-- The token bucket state of the rate limiter: the current token level and
the time of the last refill. Times and levels are rationals. -/
structure BucketState where
  tokens : Rat
  lastRefill : Rat
deriving DecidableEq

/-- Modelled from the spec (the rate limiter source is absent from this
tree): tokens refill continuously at capacity per interval, clamped at the
bucket capacity. -/
def refillTokens (capacity interval : Rat) (s : BucketState) (now : Rat) :
    Rat :=
  min capacity (s.tokens + (now - s.lastRefill) * capacity / interval)

/-- Modelled from the spec: one acquire attempt at a given time — refill,
then either take a token immediately or leave the level unchanged (the
caller computes the wait and retries later, which appears in a trace as a
later attempt). Returns the new state and whether a permit was granted. -/
def acquire (capacity interval : Rat) (s : BucketState) (now : Rat) :
    BucketState × Bool :=
  let level := refillTokens capacity interval s now
  if 1 ≤ level then (⟨level - 1, now⟩, true) else (⟨level, now⟩, false)

/-- A trace of acquire attempts against one shared bucket, in time order
(the cooperative scheduler serialises concurrent callers). Returns the
final state and the times at which permits were granted. -/
def runAcquires (capacity interval : Rat) :
    BucketState → List Rat → BucketState × List Rat
  | s, [] => (s, [])
  | s, t :: ts =>
      let step := acquire capacity interval s t
      let rest := runAcquires capacity interval step.1 ts
      (rest.1, if step.2 then t :: rest.2 else rest.2)

/-- The number of permits granted inside the closed window starting at
`wStart` of length `wLen`. -/
def grantedInWindow (wStart wLen : Rat) (grants : List Rat) : Nat :=
  (grants.filter (fun t => decide (wStart ≤ t) && decide (t ≤ wStart + wLen))).length

/-- A concrete fiscal-2023 statement bundle used by the witnesses. -/
def sampleBundle2023 : FMPFinancialStatements :=
  { incomeStatement :=
      { symbol := "AAPL"
        reportedCurrency := "USD"
        fiscalYear := 2023
        revenue := 100
        grossProfit := 40
        operatingIncome := 30
        interestExpense := 2
        netIncome := 25 }
    balanceSheet :=
      { totalCurrentAssets := 50
        totalCurrentLiabilities := 20
        totalDebt := 10
        totalEquity := 60
        totalAssets := 120
        totalLiabilities := 60
        cashAndCashEquivalents := 15 }
    cashFlow :=
      { operatingCashFlow := 35
        freeCashFlow := 28 } }

/-- A concrete fiscal-2024 statement bundle used by the witnesses. -/
def sampleBundle2024 : FMPFinancialStatements :=
  { incomeStatement :=
      { symbol := "AAPL"
        reportedCurrency := "USD"
        fiscalYear := 2024
        revenue := 110
        grossProfit := 45
        operatingIncome := 33
        interestExpense := 2
        netIncome := 27 }
    balanceSheet :=
      { totalCurrentAssets := 55
        totalCurrentLiabilities := 22
        totalDebt := 12
        totalEquity := 66
        totalAssets := 130
        totalLiabilities := 64
        cashAndCashEquivalents := 18 }
    cashFlow :=
      { operatingCashFlow := 38
        freeCashFlow := 30 } }

/-- A degenerate statement bundle: zero revenue, liabilities, equity,
assets and debt, exercising every division guard. -/
def degenerateBundle : FMPFinancialStatements :=
  { incomeStatement :=
      { symbol := "ZERO"
        reportedCurrency := "USD"
        fiscalYear := 2024
        revenue := 0
        grossProfit := 5
        operatingIncome := 3
        interestExpense := 1
        netIncome := 2 }
    balanceSheet :=
      { totalCurrentAssets := 50
        totalCurrentLiabilities := 0
        totalDebt := 0
        totalEquity := 0
        totalAssets := 0
        totalLiabilities := 0
        cashAndCashEquivalents := 0 }
    cashFlow :=
      { operatingCashFlow := 4
        freeCashFlow := 3 } }

/-- A concrete balance-sheet payload used by the storage witnesses. -/
def demoBalancePayload : Payload :=
  [("totalAssets", 120), ("totalLiabilities", 60)]

/-- A concrete stored document whose balance-sheet section is populated. -/
def demoDocument : FinDocument :=
  { incomeSection := none
    balanceSection := some demoBalancePayload
    cashFlowSection := none
    consolidatedSection := none
    sources := {StatementKind.balanceSheetStatement}
    lastUpdated := 5 }

/-- The consolidated key of the demo record. -/
def demoKey : StoreKey :=
  ⟨"AAPL", 2024, "FY", .consolidated⟩

/-- A concrete one-record store holding the demo document. -/
def demoStore : FinStore :=
  [(demoKey, demoDocument)]

/-- A concrete upsert request against the demo record key. -/
def demoOp : UpsertOp :=
  { company := "AAPL"
    year := 2024
    period := "FY"
    kind := .incomeStatement
    payload := [("revenue", 100)]
    ts := 6 }

/-- A concrete per-ticker pipeline for the batch witnesses: BADCO raises an
APIError, every other ticker succeeds. -/
def demoPipeline (t : String) : Except APIError (List String) :=
  if t = "BADCO" then Except.error ⟨500, "upstream failure"⟩
  else Except.ok [t ++ "-income", t ++ "-balance"]

/-- A concrete filing used by the pagination theorems. -/
def demoFiling : SecFiling :=
  { filingType := "10-K"
    filingDate := 20000
    url := "sec.gov/1" }

/-- A database with no companies, used by the completeness theorems. -/
def emptyDb : Database :=
  { companies := []
    financialData := []
    secFilings := [] }

/-- A trace of one hundred acquire attempts: a burst of three early
attempts followed by ninety-seven well-spaced ones. -/
def demoAttempts : List Rat :=
  [0, 0, 1] ++ (List.range 97).map (fun i => ((10 + i : Nat) : Rat))

/-!
Helper lemmas about the store operations, shared by the storage theorems.
-/

/-- Updating at a key turns its looked-up document by `f` and returns the
same lookup result otherwise absent. -/
theorem lookupStore_updateStore_self (store : FinStore) (key : StoreKey)
    (f : FinDocument → FinDocument) (d : FinDocument)
    (h : lookupStore store key = some d) :
    lookupStore (updateStore store key f) key = some (f d) := by
  induction store with
  | nil => simp [lookupStore] at h
  | cons e rest ih =>
      obtain ⟨k, d'⟩ := e
      by_cases hk : k = key
      · subst hk
        simp [lookupStore] at h
        simp [updateStore, lookupStore, h]
      · simp [lookupStore, hk] at h
        simp [updateStore, lookupStore, hk]
        exact ih h

/-- A key is absent exactly when it is not among the row keys. -/
theorem lookupStore_eq_none_iff (store : FinStore) (key : StoreKey) :
    lookupStore store key = none ↔ key ∉ store.map Prod.fst := by
  induction store with
  | nil => simp [lookupStore]
  | cons e rest ih =>
      obtain ⟨k, d'⟩ := e
      by_cases hk : k = key
      · subst hk
        simp [lookupStore]
      · rw [List.map_cons, List.mem_cons]
        simp only [lookupStore, if_neg hk]
        rw [ih]
        constructor
        · intro h hor
          rcases hor with h1 | h2
          · exact hk h1.symm
          · exact h h2
        · intro h h2
          exact h (Or.inr h2)

/-- In-place update leaves the row keys unchanged. -/
theorem updateStore_map_fst (store : FinStore) (key : StoreKey)
    (f : FinDocument → FinDocument) :
    (updateStore store key f).map Prod.fst = store.map Prod.fst := by
  induction store with
  | nil => rfl
  | cons e rest ih =>
      obtain ⟨k, d'⟩ := e
      by_cases hk : k = key
      · simp [updateStore, hk]
      · simp [updateStore, hk, ih]

/-- Merging into one kind-scoped section never changes the balance-sheet
section unless the merged kind is the balance sheet itself. -/
theorem mergeSection_balance (d : FinDocument) (payload : Payload) (ts : Nat) :
    (mergeSection d .incomeStatement payload ts).balanceSection = d.balanceSection := by
  rfl

/-- Claim C1: upsert-merge is non-destructive across statement kinds — when
the stored consolidated record of (company, year, period) already contains
a balance-sheet section, upserting an income-statement payload for the same
key leaves that balance-sheet section unchanged. -/
theorem upsert_merge_preserves_balance_section
    (store : FinStore) (company : String) (year : Nat) (period : String)
    (payload : Payload) (ts : Nat) (d : FinDocument) (b : Payload)
    (hd : lookupStore store ⟨company, year, period, .consolidated⟩ = some d)
    (hb : d.balanceSection = some b) :
    ∃ d', lookupStore
        (upsert_financials store company year period .incomeStatement payload ts)
        ⟨company, year, period, .consolidated⟩ = some d'
      ∧ d'.balanceSection = some b := by
  refine ⟨mergeSection d .incomeStatement payload ts, ?_, ?_⟩
  · simp only [upsert_financials, hd]
    exact lookupStore_updateStore_self store _ _ d hd
  · rw [mergeSection_balance]
    exact hb

/-- Witness for C1: a concrete store whose record holds a balance-sheet
section, upserted with a concrete income-statement payload. -/
theorem upsert_merge_preserves_balance_section_witness :
    lookupStore demoStore ⟨"AAPL", 2024, "FY", .consolidated⟩ = some demoDocument ∧
    demoDocument.balanceSection = some demoBalancePayload ∧
    ∃ d', lookupStore
        (upsert_financials demoStore "AAPL" 2024 "FY" .incomeStatement
          [("revenue", 100)] 6)
        ⟨"AAPL", 2024, "FY", .consolidated⟩ = some d'
      ∧ d'.balanceSection = some demoBalancePayload :=
  ⟨rfl, rfl,
    upsert_merge_preserves_balance_section demoStore "AAPL" 2024 "FY"
      [("revenue", 100)] 6 demoDocument demoBalancePayload rfl rfl⟩

/-- Creating a record appends its key; merging keeps the keys; either way a
store with pairwise distinct keys keeps them pairwise distinct. -/
theorem applyOp_nodup_keys (store : FinStore) (op : UpsertOp)
    (h : (store.map Prod.fst).Nodup) :
    ((applyOp store op).map Prod.fst).Nodup := by
  unfold applyOp upsert_financials
  cases hl : lookupStore store ⟨op.company, op.year, op.period, .consolidated⟩ with
  | none =>
      rw [List.map_append]
      rw [List.nodup_append]
      refine ⟨h, List.nodup_singleton _, ?_⟩
      intro a ha hb
      simp at hb
      subst hb
      exact (lookupStore_eq_none_iff store _).mp hl ha
  | some d =>
      rw [updateStore_map_fst]
      exact h

/-- Claim C2: key uniqueness invariant — every store reachable from the
empty store by upserts carries at most one live record per composite key,
and an upsert against an existing key merges in place, leaving the key
multiset untouched instead of inserting a second row. -/
theorem reachable_store_key_uniqueness :
    (∀ ops : List UpsertOp, ((applyOps ops).map Prod.fst).Nodup) ∧
    (∀ (store : FinStore) (op : UpsertOp),
      (lookupStore store ⟨op.company, op.year, op.period, .consolidated⟩).isSome = true →
      (applyOp store op).map Prod.fst = store.map Prod.fst) := by
  constructor
  · intro ops
    unfold applyOps
    have general : ∀ (l : List UpsertOp) (store : FinStore),
        (store.map Prod.fst).Nodup →
        ((List.foldl applyOp store l).map Prod.fst).Nodup := by
      intro l
      induction l with
      | nil => intro store h; simpa using h
      | cons op rest ih =>
          intro store h
          rw [List.foldl_cons]
          exact ih _ (applyOp_nodup_keys store op h)
    exact general ops [] (by simp)
  · intro store op h
    rw [Option.isSome_iff_exists] at h
    obtain ⟨d, hd⟩ := h
    unfold applyOp upsert_financials
    rw [hd]
    exact updateStore_map_fst store _ _

/-- Witness for C2: the demo store holds the demo key, and upserting it
again leaves the row keys unchanged. -/
theorem reachable_store_key_uniqueness_witness :
    (lookupStore demoStore ⟨demoOp.company, demoOp.year, demoOp.period,
      .consolidated⟩).isSome = true ∧
    (applyOp demoStore demoOp).map Prod.fst = demoStore.map Prod.fst :=
  ⟨rfl, reachable_store_key_uniqueness.2 demoStore demoOp rfl⟩

/-- Merging the same payload into the same section twice is the same as
merging it once. -/
theorem mergeSection_idem (d : FinDocument) (kind : StatementKind)
    (payload : Payload) (ts : Nat) :
    mergeSection (mergeSection d kind payload ts) kind payload ts
      = mergeSection d kind payload ts := by
  cases kind <;> simp [mergeSection, Finset.insert_idem]

/-- The kind-scoped section of a merge result holds the merged payload. -/
theorem sectionOf_mergeSection (d : FinDocument) (kind : StatementKind)
    (payload : Payload) (ts : Nat) :
    sectionOf (mergeSection d kind payload ts) kind = some payload := by
  cases kind <;> rfl

/-- Appending a fresh row makes it visible to lookup. -/
theorem lookupStore_append_missing (store : FinStore) (key : StoreKey)
    (d : FinDocument) (h : lookupStore store key = none) :
    lookupStore (store ++ [(key, d)]) key = some d := by
  induction store with
  | nil => simp [lookupStore]
  | cons e rest ih =>
      obtain ⟨k, d'⟩ := e
      by_cases hk : k = key
      · subst hk
        simp [lookupStore] at h
      · simp [lookupStore, hk] at h ⊢
        exact ih h

/-- Updating a key that only occurs in the appended row rewrites exactly
that row. -/
theorem updateStore_append_missing (store : FinStore) (key : StoreKey)
    (d : FinDocument) (f : FinDocument → FinDocument)
    (h : lookupStore store key = none) :
    updateStore (store ++ [(key, d)]) key f = store ++ [(key, f d)] := by
  induction store with
  | nil => simp [updateStore]
  | cons e rest ih =>
      obtain ⟨k, d'⟩ := e
      by_cases hk : k = key
      · subst hk
        simp [lookupStore] at h
      · simp [lookupStore, hk] at h
        simp [updateStore, hk]
        exact ih h

/-- Two in-place updates at the same key compose. -/
theorem updateStore_updateStore (store : FinStore) (key : StoreKey)
    (f g : FinDocument → FinDocument) :
    updateStore (updateStore store key f) key g
      = updateStore store key (fun d => g (f d)) := by
  induction store with
  | nil => rfl
  | cons e rest ih =>
      obtain ⟨k, d'⟩ := e
      by_cases hk : k = key
      · simp [updateStore, hk]
      · simp [updateStore, hk, ih]

/-- Claim C3: upsert-merge is idempotent — repeating an upsert with the
same payload leaves the store exactly as after the single upsert, and an
upsert into a fresh key yields a document whose sources set has exactly one
element and whose kind-scoped section holds the payload. -/
theorem upsert_merge_idempotent :
    (∀ (store : FinStore) (company : String) (year : Nat) (period : String)
        (kind : StatementKind) (payload : Payload) (ts : Nat),
      upsert_financials
          (upsert_financials store company year period kind payload ts)
          company year period kind payload ts
        = upsert_financials store company year period kind payload ts) ∧
    (∀ (store : FinStore) (company : String) (year : Nat) (period : String)
        (kind : StatementKind) (payload : Payload) (ts : Nat),
      lookupStore store ⟨company, year, period, .consolidated⟩ = none →
      ∃ d, lookupStore
            (upsert_financials store company year period kind payload ts)
            ⟨company, year, period, .consolidated⟩ = some d
        ∧ d.sources.card = 1 ∧ sectionOf d kind = some payload) := by
  constructor
  · intro store company year period kind payload ts
    cases hl : lookupStore store ⟨company, year, period, .consolidated⟩ with
    | none =>
        have h1 : upsert_financials store company year period kind payload ts
            = store ++ [(⟨company, year, period, .consolidated⟩,
                mergeSection emptyDocument kind payload ts)] := by
          simp only [upsert_financials, hl]
        rw [h1]
        have h2 := lookupStore_append_missing store
          ⟨company, year, period, .consolidated⟩
          (mergeSection emptyDocument kind payload ts) hl
        simp only [upsert_financials, h2]
        rw [updateStore_append_missing store _ _ _ hl]
        rw [mergeSection_idem]
    | some d =>
        have h1 : upsert_financials store company year period kind payload ts
            = updateStore store ⟨company, year, period, .consolidated⟩
                (fun d => mergeSection d kind payload ts) := by
          simp only [upsert_financials, hl]
        rw [h1]
        have h2 := lookupStore_updateStore_self store
          ⟨company, year, period, .consolidated⟩
          (fun d => mergeSection d kind payload ts) d hl
        simp only [upsert_financials, h2]
        rw [updateStore_updateStore]
        have h3 : (fun d => mergeSection (mergeSection d kind payload ts) kind payload ts)
            = fun d => mergeSection d kind payload ts := by
          funext d
          exact mergeSection_idem d kind payload ts
        rw [h3]
  · intro store company year period kind payload ts hl
    refine ⟨mergeSection emptyDocument kind payload ts, ?_, ?_, ?_⟩
    · simp only [upsert_financials, hl]
      exact lookupStore_append_missing store _ _ hl
    · cases kind <;> simp [mergeSection, emptyDocument]
    · exact sectionOf_mergeSection emptyDocument kind payload ts

/-- Witness for C3: a double upsert into the empty store, checked at a
concrete key and payload. -/
theorem upsert_merge_idempotent_witness :
    upsert_financials
        (upsert_financials [] "AAPL" 2024 "FY" .incomeStatement
          [("revenue", 100)] 6)
        "AAPL" 2024 "FY" .incomeStatement [("revenue", 100)] 6
      = upsert_financials [] "AAPL" 2024 "FY" .incomeStatement
          [("revenue", 100)] 6 ∧
    lookupStore ([] : FinStore) ⟨"AAPL", 2024, "FY", .consolidated⟩ = none ∧
    ∃ d, lookupStore
          (upsert_financials [] "AAPL" 2024 "FY" .incomeStatement
            [("revenue", 100)] 6)
          ⟨"AAPL", 2024, "FY", .consolidated⟩ = some d
      ∧ d.sources.card = 1 ∧ sectionOf d .incomeStatement = some [("revenue", 100)] :=
  ⟨upsert_merge_idempotent.1 [] "AAPL" 2024 "FY" .incomeStatement
      [("revenue", 100)] 6,
   rfl,
   upsert_merge_idempotent.2 [] "AAPL" 2024 "FY" .incomeStatement
      [("revenue", 100)] 6 rfl⟩

/-- Claim C4: partial-failure isolation — for a non-empty ticker list and a
registered provider key, the batch call returns a result map (never an
error for per-ticker failures) in which every ticker whose pipeline raised
an APIError is reported as failed and every succeeding ticker as
successful. -/
theorem batch_partial_failure_isolation
    (registry : List String) (providerKey : String)
    (pipeline : String → Except APIError (List String))
    (tickers : List String)
    (hne : tickers ≠ []) (hkey : providerKey ∈ registry) :
    ∃ results,
      fetch_and_store_for_tickers registry providerKey pipeline tickers
        = Except.ok results ∧
      ∀ t ∈ tickers,
        (∀ e, pipeline t = Except.error e →
          (t, TickerOutcome.failed e) ∈ results) ∧
        (∀ ids, pipeline t = Except.ok ids →
          (t, TickerOutcome.success ids) ∈ results) := by
  have hempty : tickers.isEmpty = false := by
    cases tickers with
    | nil => exact absurd rfl hne
    | cons a l => rfl
  refine ⟨tickers.map (fun t =>
      (t, match pipeline t with
          | Except.ok ids => TickerOutcome.success ids
          | Except.error e => TickerOutcome.failed e)), ?_, ?_⟩
  · simp only [fetch_and_store_for_tickers]
    rw [if_neg (by simp [hempty]), if_neg (not_not_intro hkey)]
  · intro t ht
    constructor
    · intro e hpe
      refine List.mem_map.mpr ⟨t, ht, ?_⟩
      rw [hpe]
    · intro ids hpo
      refine List.mem_map.mpr ⟨t, ht, ?_⟩
      rw [hpo]

/-- Witness for C4: BADCO raises an APIError while AAPL and MSFT succeed;
the batch call returns a result map and reports each accordingly. -/
theorem batch_partial_failure_isolation_witness :
    (["AAPL", "BADCO", "MSFT"] : List String) ≠ [] ∧
    "fmp" ∈ ["fmp"] ∧
    ∃ results,
      fetch_and_store_for_tickers ["fmp"] "fmp" demoPipeline
          ["AAPL", "BADCO", "MSFT"] = Except.ok results ∧
      ∀ t ∈ ["AAPL", "BADCO", "MSFT"],
        (∀ e, demoPipeline t = Except.error e →
          (t, TickerOutcome.failed e) ∈ results) ∧
        (∀ ids, demoPipeline t = Except.ok ids →
          (t, TickerOutcome.success ids) ∈ results) :=
  ⟨by decide, by simp,
    batch_partial_failure_isolation ["fmp"] "fmp" demoPipeline
      ["AAPL", "BADCO", "MSFT"] (by decide) (by simp)⟩

/-- Claim C5: budget fairness — with a supplied (hence truthy, nonzero)
global budget and more than one requested ticker, every ticker is allotted
exactly the integer quotient of the budget by the ticker count, the
remainder being dropped by natural division. -/
theorem budget_fairness_division (b : Nat) (tickers : List String)
    (hb : 0 < b) (hn : 1 < tickers.length) :
    per_ticker_limit (some b) tickers = some (b / tickers.length) ∧
    ∀ t ∈ tickers,
      (t, some (b / tickers.length)) ∈ allocate_budget (some b) tickers := by
  have hlim : per_ticker_limit (some b) tickers = some (b / tickers.length) := by
    simp only [per_ticker_limit]
    rw [if_pos ⟨Nat.pos_iff_ne_zero.mp hb, hn⟩]
  refine ⟨hlim, ?_⟩
  intro t ht
  refine List.mem_map.mpr ⟨t, ht, ?_⟩
  rw [hlim]

/-- Witness for C5: a budget of 1500 over three tickers allots exactly 500
to each. -/
theorem budget_fairness_division_witness :
    0 < 1500 ∧ 1 < (["AAPL", "MSFT", "GOOG"] : List String).length ∧
    per_ticker_limit (some 1500) ["AAPL", "MSFT", "GOOG"] = some 500 ∧
    ("MSFT", some 500) ∈ allocate_budget (some 1500) ["AAPL", "MSFT", "GOOG"] :=
  ⟨by decide, by decide,
    (budget_fairness_division 1500 ["AAPL", "MSFT", "GOOG"]
      (by decide) (by decide)).1,
    (budget_fairness_division 1500 ["AAPL", "MSFT", "GOOG"]
      (by decide) (by decide)).2 "MSFT" (by simp)⟩

/-- Counterexample for C6: with 1001 matching filings upstream the result
set spans two pages even at the maximum page size of 1000, and the fetch
returns 1000 records — not the full count across all pages, because only
page 0 is requested. -/
theorem sec_filings_pagination_counterexample :
    (List.replicate 1001 demoFiling).length = 1001 ∧
    (fmpSecFilingsPage (List.replicate 1001 demoFiling) 1 1000).length = 1 ∧
    (fetch_and_store_sec_filings (List.replicate 1001 demoFiling)).length = 1000 := by
  refine ⟨by rw [List.length_replicate], ?_, ?_⟩
  · simp only [fmpSecFilingsPage, List.length_take, List.length_drop,
      List.length_replicate]
    norm_num
  · simp only [fetch_and_store_sec_filings, fmpSecFilingsPage, Nat.zero_mul,
      List.drop_zero, List.length_take, List.length_replicate]
    norm_num

/-- Claim C6 as amended: the transport requests the maximum page size the
API allows (limit 1000) but issues only the single page-0 request, so the
returned record count is the minimum of 1000 and the full count — equal to
the full count across all pages exactly when that count fits in one
maximum-size page. -/
theorem sec_filings_single_max_page (allFilings : List SecFiling) :
    (fetch_and_store_sec_filings allFilings).length = min 1000 allFilings.length ∧
    (allFilings.length ≤ 1000 →
      fetch_and_store_sec_filings allFilings = allFilings) := by
  constructor
  · simp [fetch_and_store_sec_filings, fmpSecFilingsPage]
  · intro h
    simp [fetch_and_store_sec_filings, fmpSecFilingsPage, List.take_of_length_le h]

/-- Witness for C6 (amended): a two-filing result set is returned whole. -/
theorem sec_filings_single_max_page_witness :
    (fetch_and_store_sec_filings [demoFiling, demoFiling]).length
      = min 1000 ([demoFiling, demoFiling] : List SecFiling).length ∧
    ([demoFiling, demoFiling] : List SecFiling).length ≤ 1000 ∧
    fetch_and_store_sec_filings [demoFiling, demoFiling]
      = [demoFiling, demoFiling] :=
  ⟨(sec_filings_single_max_page [demoFiling, demoFiling]).1,
   by decide,
   (sec_filings_single_max_page [demoFiling, demoFiling]).2 (by decide)⟩

/-- Counterexample for C7: for an unknown company the completeness check
does not raise — it returns the structured not-found report as a normal
value, contradicting the raises-if-unknown half of the claim. -/
theorem check_completeness_unknown_company_counterexample :
    get_company_id emptyDb "ZZZZ" = none ∧
    check_completeness_task emptyDb "ZZZZ" [2024] 100 200
      = Except.ok companyNotFoundStatus :=
  ⟨rfl, rfl⟩

/-- Claim C7 as amended: the completeness check returns a structured report
for every queried company and never raises; a known company receives the
database-level report, and an unknown company receives the not-found
report (reason set) instead of an exception. -/
theorem check_completeness_never_raises (db : Database) (ticker : String)
    (requiredYears : List Nat) (oldThreshold recentThreshold : Nat) :
    ∃ s, check_completeness_task db ticker requiredYears oldThreshold
        recentThreshold = Except.ok s ∧
      (get_company_id db ticker = none ↔ s.reason = some "company_not_found") := by
  cases h : get_company_id db ticker with
  | none =>
      refine ⟨companyNotFoundStatus, ?_, ?_⟩
      · simp [check_completeness_task, h]
      · simp [companyNotFoundStatus]
  | some companyId =>
      refine ⟨check_data_completeness db companyId requiredYears oldThreshold
        recentThreshold, ?_, ?_⟩
      · simp [check_completeness_task, h]
      · have hr : (check_data_completeness db companyId requiredYears
            oldThreshold recentThreshold).reason = none := rfl
        simp [hr]

/-- Grants of a concatenated attempt trace split at the concatenation
point, the second part running from the state the first part reaches. -/
theorem runAcquires_grants_append (C T : Rat) (s : BucketState) (l1 l2 : List Rat) :
    (runAcquires C T s (l1 ++ l2)).2
      = (runAcquires C T s l1).2 ++ (runAcquires C T (runAcquires C T s l1).1 l2).2 := by
  induction l1 generalizing s with
  | nil => simp [runAcquires]
  | cons t ts ih =>
      simp only [List.cons_append, runAcquires, List.append_eq]
      rw [ih]
      cases (acquire C T s t).2 <;> simp

/-- Every grant time of a run is one of the attempt times. -/
theorem runAcquires_grants_mem (C T : Rat) (s : BucketState) (ts : List Rat) :
    ∀ t ∈ (runAcquires C T s ts).2, t ∈ ts := by
  induction ts generalizing s with
  | nil => simp [runAcquires]
  | cons a l ih =>
      intro t ht
      simp only [runAcquires] at ht
      cases hb : (acquire C T s a).2
      · rw [hb] at ht
        simp at ht
        exact List.mem_cons_of_mem a (ih _ t ht)
      · rw [hb] at ht
        simp at ht
        rcases ht with h | h
        · simp [h]
        · exact List.mem_cons_of_mem a (ih _ t h)

/-- Evaluation of the burst prefix: with capacity 2 per interval 2 and a
full bucket at time 0, the attempts at times 0, 0 and 1 are all granted. -/
theorem runAcquires_burst_eval :
    runAcquires 2 2 ⟨2, 0⟩ [0, 0, 1] = (⟨0, 1⟩, [0, 0, 1]) := by
  norm_num [runAcquires, acquire, refillTokens, min_def]

/-- Counterexample for C8: one hundred acquire calls against a shared
bucket of capacity 2 per interval 2 — the initial burst of two permits
plus the continuously refilled permit give three grants inside the sliding
window from time 0 to time 2, exceeding the capacity bound the claim
asserts for every such window. -/
theorem rate_limiter_sliding_window_counterexample :
    demoAttempts.length = 100 ∧
    2 < grantedInWindow 0 2 (runAcquires 2 2 ⟨2, 0⟩ demoAttempts).2 := by
  constructor
  · decide
  · have hgr : (runAcquires 2 2 ⟨2, 0⟩ demoAttempts).2
        = [0, 0, 1] ++ (runAcquires 2 2 ⟨0, 1⟩
            ((List.range 97).map (fun i => ((10 + i : Nat) : Rat)))).2 := by
      rw [show demoAttempts
          = [0, 0, 1] ++ (List.range 97).map (fun i => ((10 + i : Nat) : Rat)) from rfl]
      rw [runAcquires_grants_append, runAcquires_burst_eval]
    rw [hgr]
    unfold grantedInWindow
    rw [List.filter_append]
    have htail : ((runAcquires 2 2 ⟨0, 1⟩
        ((List.range 97).map (fun i => ((10 + i : Nat) : Rat)))).2.filter
          (fun t => decide ((0:Rat) ≤ t) && decide (t ≤ 0 + 2))) = [] := by
      rw [List.filter_eq_nil_iff]
      intro t ht
      have hmem : t ∈ (List.range 97).map (fun i => ((10 + i : Nat) : Rat)) :=
        runAcquires_grants_mem 2 2 ⟨0, 1⟩ _ t ht
      obtain ⟨j, hj, hjeq⟩ := List.mem_map.mp hmem
      simp only [Bool.and_eq_true, decide_eq_true_eq, not_and]
      intro h0 hle
      have hten : (10:Rat) ≤ ((10 + j : Nat) : Rat) := by
        exact_mod_cast Nat.le_add_right 10 j
      rw [← hjeq] at hle
      linarith
    rw [htail, List.append_nil]
    norm_num [List.filter]

/-- Conservation bound: a run whose attempt times stay below a horizon
grants at most the starting level plus what refills up to the horizon. -/
theorem runAcquires_count_le (C T : Rat) (hC : 0 < C) (hT : 0 < T) :
    ∀ (ts : List Rat) (s : BucketState) (B : Rat),
      0 ≤ s.tokens → s.lastRefill ≤ B →
      List.Chain (fun a b => a ≤ b) s.lastRefill ts →
      (∀ t ∈ ts, t ≤ B) →
      ((runAcquires C T s ts).2.length : Rat)
        ≤ s.tokens + (B - s.lastRefill) * C / T := by
  intro ts
  induction ts with
  | nil =>
      intro s B h0 hB hchain hall
      simp only [runAcquires, List.length_nil, Nat.cast_zero]
      have : 0 ≤ (B - s.lastRefill) * C / T :=
        div_nonneg (mul_nonneg (sub_nonneg.mpr hB) hC.le) hT.le
      linarith
  | cons t ts ih =>
      intro s B h0 hB hchain hall
      rw [List.chain_cons] at hchain
      obtain ⟨hst, hchain'⟩ := hchain
      have htB : t ≤ B := hall t (List.mem_cons_self t ts)
      have hΔ : 0 ≤ t - s.lastRefill := sub_nonneg.mpr hst
      have hlev_le : refillTokens C T s t
          ≤ s.tokens + (t - s.lastRefill) * C / T := min_le_right _ _
      have hlev_nonneg : 0 ≤ refillTokens C T s t := by
        refine le_min hC.le ?_
        have : 0 ≤ (t - s.lastRefill) * C / T :=
          div_nonneg (mul_nonneg hΔ hC.le) hT.le
        linarith
      have hsum : (t - s.lastRefill) * C / T + (B - t) * C / T
          = (B - s.lastRefill) * C / T := by ring
      by_cases hgr : (1:Rat) ≤ refillTokens C T s t
      · have hstep : acquire C T s t = (⟨refillTokens C T s t - 1, t⟩, true) := by
          simp only [acquire]
          rw [if_pos hgr]
        have hrun : runAcquires C T s (t :: ts)
            = ((runAcquires C T ⟨refillTokens C T s t - 1, t⟩ ts).1,
               t :: (runAcquires C T ⟨refillTokens C T s t - 1, t⟩ ts).2) := by
          simp [runAcquires, hstep]
        rw [hrun]
        simp only [List.length_cons]
        push_cast
        have hih := ih ⟨refillTokens C T s t - 1, t⟩ B (by simp; linarith) htB
          hchain' (fun u hu => hall u (List.mem_cons_of_mem t hu))
        simp only at hih
        linarith
      · have hstep : acquire C T s t = (⟨refillTokens C T s t, t⟩, false) := by
          simp only [acquire]
          rw [if_neg hgr]
        have hrun : runAcquires C T s (t :: ts)
            = ((runAcquires C T ⟨refillTokens C T s t, t⟩ ts).1,
               (runAcquires C T ⟨refillTokens C T s t, t⟩ ts).2) := by
          simp [runAcquires, hstep]
        rw [hrun]
        have hih := ih ⟨refillTokens C T s t, t⟩ B (by simp [hlev_nonneg]) htB
          hchain' (fun u hu => hall u (List.mem_cons_of_mem t hu))
        simp only at hih
        linarith

/-- The token level stays between zero and the capacity along any run. -/
theorem runAcquires_tokens_bounds (C T : Rat) (hC : 0 < C) (hT : 0 < T) :
    ∀ (ts : List Rat) (s : BucketState),
      0 ≤ s.tokens → s.tokens ≤ C →
      List.Chain (fun a b => a ≤ b) s.lastRefill ts →
      0 ≤ (runAcquires C T s ts).1.tokens ∧
        (runAcquires C T s ts).1.tokens ≤ C := by
  intro ts
  induction ts with
  | nil =>
      intro s h0 hc hchain
      exact ⟨h0, hc⟩
  | cons t ts ih =>
      intro s h0 hc hchain
      rw [List.chain_cons] at hchain
      obtain ⟨hst, hchain'⟩ := hchain
      have hΔ : 0 ≤ t - s.lastRefill := sub_nonneg.mpr hst
      have hlev_nonneg : 0 ≤ refillTokens C T s t := by
        refine le_min hC.le ?_
        have : 0 ≤ (t - s.lastRefill) * C / T :=
          div_nonneg (mul_nonneg hΔ hC.le) hT.le
        linarith
      have hlev_le : refillTokens C T s t ≤ C := min_le_left _ _
      by_cases hgr : (1:Rat) ≤ refillTokens C T s t
      · have hstep : acquire C T s t = (⟨refillTokens C T s t - 1, t⟩, true) := by
          simp only [acquire]
          rw [if_pos hgr]
        have hrun : (runAcquires C T s (t :: ts)).1
            = (runAcquires C T ⟨refillTokens C T s t - 1, t⟩ ts).1 := by
          simp only [runAcquires, hstep]
        rw [hrun]
        exact ih ⟨refillTokens C T s t - 1, t⟩ (by simp; linarith)
          (by simp; linarith) hchain'
      · have hstep : acquire C T s t = (⟨refillTokens C T s t, t⟩, false) := by
          simp only [acquire]
          rw [if_neg hgr]
        have hrun : (runAcquires C T s (t :: ts)).1
            = (runAcquires C T ⟨refillTokens C T s t, t⟩ ts).1 := by
          simp only [runAcquires, hstep]
        rw [hrun]
        exact ih ⟨refillTokens C T s t, t⟩ (by simp [hlev_nonneg])
          (by simp [hlev_le]) hchain'

/-- Claim C8 as amended: for a token bucket of capacity C refilling
continuously at C per interval T, the permits granted to any batch of
acquire calls whose times fall within a window of length T starting at the
state time are at most 2C — the accumulated burst of at most C plus at
most C refilled during the window; the level invariant in the second part
carries the bound to every window of a longer trace. The C-per-window
bound of the original claim is refuted by the counterexample. -/
theorem rate_limiter_window_bound :
    (∀ (C T : Rat) (s : BucketState) (attempts : List Rat),
      0 < C → 0 < T → 0 ≤ s.tokens → s.tokens ≤ C →
      List.Chain (fun a b => a ≤ b) s.lastRefill attempts →
      (∀ t ∈ attempts, t ≤ s.lastRefill + T) →
      ((runAcquires C T s attempts).2.length : Rat) ≤ 2 * C) ∧
    (∀ (C T : Rat) (s : BucketState) (attempts : List Rat),
      0 < C → 0 < T → 0 ≤ s.tokens → s.tokens ≤ C →
      List.Chain (fun a b => a ≤ b) s.lastRefill attempts →
      0 ≤ (runAcquires C T s attempts).1.tokens ∧
        (runAcquires C T s attempts).1.tokens ≤ C) := by
  constructor
  · intro C T s attempts hC hT h0 hc hchain hall
    have hB : s.lastRefill ≤ s.lastRefill + T := by linarith
    have h := runAcquires_count_le C T hC hT attempts s (s.lastRefill + T)
      h0 hB hchain hall
    have hTC : (s.lastRefill + T - s.lastRefill) * C / T = C := by
      field_simp
    rw [hTC] at h
    linarith
  · intro C T s attempts hC hT h0 hc hchain
    exact runAcquires_tokens_bounds C T hC hT attempts s h0 hc hchain

/-- Witness for C8 (amended): the burst trace against the capacity-2 bucket
grants three permits, within the amended bound of four. -/
theorem rate_limiter_window_bound_witness :
    List.Chain (fun a b => a ≤ b) (0:Rat) [0, 0, 1] ∧
    ((runAcquires 2 2 ⟨2, 0⟩ [0, 0, 1]).2.length : Rat) ≤ 2 * 2 := by
  have hchain : List.Chain (fun a b => a ≤ b) (0:Rat) [0, 0, 1] :=
    List.Chain.cons (by norm_num)
      (List.Chain.cons (by norm_num)
        (List.Chain.cons (by norm_num) List.Chain.nil))
  have hmem : ∀ t ∈ ([0, 0, 1] : List Rat), t ≤ (0:Rat) + 2 := by
    intro t ht
    simp only [List.mem_cons, List.not_mem_nil, or_false] at ht
    rcases ht with rfl | rfl | rfl <;> norm_num
  exact ⟨hchain,
    rate_limiter_window_bound.1 2 2 ⟨2, 0⟩ [0, 0, 1] (by norm_num) (by norm_num)
      (by norm_num) (by norm_num) hchain hmem⟩

/-- Claim C9: guarded division — `calculateRatio` returns null exactly when
the numerator or denominator is null or undefined or the denominator is
zero, and otherwise the quotient; consequently every ratio-fed metric field
of `calculateMetricsForYear` is null on degenerate input (zero revenue,
liabilities, equity, assets or debt) instead of an unguarded division
result. -/
theorem calculateRatio_guarded :
    (∀ numerator denominator : Option Rat,
      calculateRatio numerator denominator = none ↔
        numerator = none ∨ denominator = none ∨ denominator = some 0) ∧
    (∀ a b : Rat, b ≠ 0 →
      calculateRatio (some a) (some b) = some (a / b)) ∧
    (∀ (current : FMPFinancialStatements)
        (previous : Option FMPFinancialStatements),
      (current.incomeStatement.revenue = 0 →
        (calculateMetricsForYear current previous).grossMargin = none ∧
        (calculateMetricsForYear current previous).operatingMargin = none ∧
        (calculateMetricsForYear current previous).netMargin = none ∧
        (calculateMetricsForYear current previous).operatingCashFlowMargin = none ∧
        (calculateMetricsForYear current previous).freeCashFlowMargin = none) ∧
      (current.balanceSheet.totalCurrentLiabilities = 0 →
        (calculateMetricsForYear current previous).currentRatio = none) ∧
      (current.balanceSheet.totalEquity = 0 →
        (calculateMetricsForYear current previous).debtToEquity = none ∧
        (calculateMetricsForYear current previous).returnOnEquity = none) ∧
      (current.balanceSheet.totalAssets = 0 →
        (calculateMetricsForYear current previous).returnOnAssets = none ∧
        (calculateMetricsForYear current previous).assetTurnover = none) ∧
      (current.balanceSheet.totalDebt = 0 →
        (calculateMetricsForYear current previous).returnOnInvestedCapital = none)) := by
  refine ⟨?_, ?_, ?_⟩
  · intro numerator denominator
    simp only [calculateRatio]
    split_ifs with h
    · exact iff_of_true rfl h
    · exact iff_of_false (by simp) h
  · intro a b hb
    simp [calculateRatio, hb]
  · intro current previous
    refine ⟨?_, ?_, ?_, ?_, ?_⟩
    · intro h
      refine ⟨?_, ?_, ?_, ?_, ?_⟩ <;>
        simp [calculateMetricsForYear, calculateRatio, h]
    · intro h
      simp [calculateMetricsForYear, calculateRatio, h]
    · intro h
      constructor <;> simp [calculateMetricsForYear, calculateRatio, h]
    · intro h
      constructor <;> simp [calculateMetricsForYear, calculateRatio, h]
    · intro h
      simp [calculateMetricsForYear, calculateRatio, h]

/-- Witness for C9: a concrete non-degenerate quotient and the degenerate
bundle with zero revenue yielding a null gross margin. -/
theorem calculateRatio_guarded_witness :
    (2:Rat) ≠ 0 ∧ calculateRatio (some 1) (some 2) = some (1 / 2) ∧
    degenerateBundle.incomeStatement.revenue = 0 ∧
    (calculateMetricsForYear degenerateBundle none).grossMargin = none :=
  ⟨by norm_num, calculateRatio_guarded.2.1 1 2 (by norm_num), rfl,
    ((calculateRatio_guarded.2.2 degenerateBundle none).1 rfl).1⟩

/-- On inputs whose fiscal years are pairwise distinct, the sort of the
transformer is determined by the multiset of bundles: any two permuted
inputs sort to the same list. -/
theorem sortByFiscalYear_eq_of_perm (l l' : List FMPFinancialStatements)
    (hp : l.Perm l') (hn : (l.map fiscalYearOf).Nodup) :
    sortByFiscalYear l = sortByFiscalYear l' := by
  haveI hanti : IsAntisymm FMPFinancialStatements
      (fun a b => fiscalYearOf a < fiscalYearOf b) :=
    ⟨fun a b h h' => absurd (Nat.lt_trans h h') (Nat.lt_irrefl _)⟩
  haveI htot : IsTotal FMPFinancialStatements
      (fun a b => fiscalYearOf a ≤ fiscalYearOf b) :=
    ⟨fun a b => Nat.le_total _ _⟩
  haveI htrans : IsTrans FMPFinancialStatements
      (fun a b => fiscalYearOf a ≤ fiscalYearOf b) :=
    ⟨fun a b c hab hbc => Nat.le_trans hab hbc⟩
  have hperm : (sortByFiscalYear l).Perm (sortByFiscalYear l') :=
    (List.perm_insertionSort _ l).trans
      (hp.trans (List.perm_insertionSort _ l').symm)
  have hs : ∀ m : List FMPFinancialStatements, (m.map fiscalYearOf).Nodup →
      List.Sorted (fun a b => fiscalYearOf a < fiscalYearOf b)
        (sortByFiscalYear m) := by
    intro m hm
    have hsorted : List.Sorted (fun a b => fiscalYearOf a ≤ fiscalYearOf b)
        (sortByFiscalYear m) := List.sorted_insertionSort _ m
    have hnodup : ((sortByFiscalYear m).map fiscalYearOf).Nodup :=
      (((List.perm_insertionSort _ m).map fiscalYearOf).nodup_iff).mpr hm
    have hne : List.Pairwise (fun a b => fiscalYearOf a ≠ fiscalYearOf b)
        (sortByFiscalYear m) := List.pairwise_map.mp hnodup
    exact (List.Pairwise.and hsorted hne).imp
      (fun h => lt_of_le_of_ne h.1 h.2)
  have hn' : (l'.map fiscalYearOf).Nodup := ((hp.map fiscalYearOf).nodup_iff).mp hn
  exact List.eq_of_perm_of_sorted hperm (hs l hn) (hs l' hn')

/-- Claim C10: order insensitivity of the prompt transform — on a list
whose fiscal years are pairwise distinct the transformer returns the same
result for every permutation of its input, and on the empty list it fails
(the source throws) instead of returning a value. -/
theorem transform_order_insensitive :
    (∀ l l' : List FMPFinancialStatements, l.Perm l' →
      (l.map fiscalYearOf).Nodup →
      transformFinancialDataForPrompts l = transformFinancialDataForPrompts l') ∧
    transformFinancialDataForPrompts [] = none := by
  constructor
  · intro l l' hp hn
    cases l with
    | nil =>
        rw [List.Perm.eq_nil hp.symm]
    | cons f fs =>
        cases l' with
        | nil => exact absurd (List.Perm.eq_nil hp) (by simp)
        | cons g gs =>
            have hsort : sortByFiscalYear (f :: fs) = sortByFiscalYear (g :: gs) :=
              sortByFiscalYear_eq_of_perm (f :: fs) (g :: gs) hp hn
            simp only [transformFinancialDataForPrompts, hsort]
  · rfl

/-- Witness for C10: the two sample bundles in both orders transform to the
same result. -/
theorem transform_order_insensitive_witness :
    ([sampleBundle2023, sampleBundle2024].Perm
      [sampleBundle2024, sampleBundle2023]) ∧
    (([sampleBundle2023, sampleBundle2024].map fiscalYearOf).Nodup) ∧
    transformFinancialDataForPrompts [sampleBundle2023, sampleBundle2024]
      = transformFinancialDataForPrompts [sampleBundle2024, sampleBundle2023] := by
  have hp : ([sampleBundle2023, sampleBundle2024].Perm
      [sampleBundle2024, sampleBundle2023]) :=
    List.Perm.swap sampleBundle2024 sampleBundle2023 []
  have hn : (([sampleBundle2023, sampleBundle2024].map fiscalYearOf).Nodup) := by
    simp [sampleBundle2023, sampleBundle2024, fiscalYearOf]
  exact ⟨hp, hn, transform_order_insensitive.1 _ _ hp hn⟩
